import Mathlib

/-!
Shallow embedding of `src/ama-chatbot.py` (repository fascani/ama-chatbot).

Python floats are modelled as integer scalars (`ℤ`): an ordered ring with exact arithmetic suffices for the dot products and comparisons the claims involve, and keeps every definition kernel-computable; external services (OpenAI
embeddings/completions, the local sentence-transformer, the GPT-2 tokenizer)
are modelled as oracle function parameters; the Google-sheet worksheets are
modelled as grids (`List (List String)`) holding exactly the rows that
`sheet.get_all_values()` returns, with `update_cell` writing one cell
(extending the grid when the target lies just past the current data, as the
Sheets API does).  Raised Python exceptions are modelled with `Except`.
-/

namespace AmaChatbot

/-- Failure modes of the Python code.  `DataError` is the spec's taxonomy name
for the exception `np.dot` raises when an entry's `embeddings` cell is the
empty-string placeholder (a `TypeError` at runtime); `ValueError` is what
`float('')` raises; `UnboundLocalError` is what `get_embeddings` raises when
`method` matches neither branch and the local variable `embedding` was never
assigned. -/
inductive PyError where
  | DataError
  | ValueError
  | UnboundLocalError
deriving DecidableEq, Repr

deriving instance DecidableEq for Except

/-- One row of the `info` worksheet after `get_data` has parsed it
(columns `section`, `content`, `num_tokens`, `embeddings`).
`embeddings = none` models the empty-string cell (`parse_numbers` returns `''`
for an empty cell); `sectionTitle` renders the source column `section`
(`section` is a Lean keyword). -/
structure Entry where
  sectionTitle : String
  content : String
  num_tokens : Nat
  embeddings : Option (List ℤ)
deriving DecidableEq, Repr, Inhabited

/-! ### Python string helpers -/

/-- Character set stripped by Python's `str.strip()` with no argument. -/
def wsChars : List Char := [' ', '\t', '\n', '\r', '\x0b', '\x0c']

/-- Character set stripped by `s.strip('[]')` in `parse_numbers`. -/
def bracketChars : List Char := ['[', ']']

/-- `str.strip(chars)` on a character list: drop members of `chars` from both
ends. -/
def stripCore (chars : List Char) (l : List Char) : List Char :=
  ((l.dropWhile (fun c => decide (c ∈ chars))).reverse.dropWhile
      (fun c => decide (c ∈ chars))).reverse

/-- Python `str.strip(chars)`. -/
def pyStrip (chars : List Char) (s : String) : String :=
  String.mk (stripCore chars s.toList)

/-- Python `str.split(',')` (no maxsplit): splits on every comma; the empty
string splits to `[""]`, exactly as in Python. -/
def splitOnCommaChars : List Char → List (List Char)
  | [] => [[]]
  | c :: rest =>
    if c = ',' then [] :: splitOnCommaChars rest
    else
      match splitOnCommaChars rest with
      | [] => [[c]]
      | t :: ts => (c :: t) :: ts

/-- The list comprehension `[float(x) for x in tokens]`: elementwise parse,
aborting at the first `float` failure (a raised `ValueError`). -/
def map_float {α : Type} (pyFloat : String → Option α) : List String → Option (List α)
  | [] => some []
  | t :: ts =>
    match pyFloat t with
    | none => none
    | some x =>
      match map_float pyFloat ts with
      | none => none
      | some xs => some (x :: xs)

/-- `parse_numbers` (src/ama-chatbot.py:30-34).  The element-level
`float : str -> float` conversion is the external Python builtin, passed as the
oracle `pyFloat` (it fails on the empty string).  The result `none` models the
Python function returning the empty string `''` for an empty cell. -/
def parse_numbers {α : Type} (pyFloat : String → Option α) (s : String) :
    Except PyError (Option (List α)) :=
  if s = "" then .ok none
  else
    match map_float pyFloat ((splitOnCommaChars (stripCore bracketChars s.toList)).map String.mk) with
    | some l => .ok (some l)
    | none => .error .ValueError

/-- Python `", ".join` as used by `str` on a list: the separator between
successive element representations. -/
def joinCS : List (List Char) → List Char
  | [] => []
  | [t] => t
  | t :: ts => t ++ ',' :: ' ' :: joinCS ts

/-- Python `str` of a list value, as written back to the sheet by
`record_embeddings` (`str(df.loc[row, 'embeddings'])`): `"[" + ", ".join(repr
of each element) + "]"`.  The element `repr` is the external Python float
`repr`, passed as the oracle `reprF`. -/
def pyStrList {α : Type} (reprF : α → String) (l : List α) : String :=
  String.mk ('[' :: joinCS (l.map (fun x => (reprF x).toList)) ++ [']'])

/-- A concrete element parser used to instantiate the oracles at the
repr-string level (Python's `repr` is injective on floats, so a float can be
identified with its repr string): `float` strips surrounding spaces and fails
on the empty string. -/
def pyFloatTok (s : String) : Option String :=
  if pyStrip [' '] s = "" then none else some (pyStrip [' '] s)

/-! ### The Google-sheet model -/

/-- A worksheet, as the list of rows returned by `sheet.get_all_values()`. -/
abbrev Grid := List (List String)

/-- Write value `v` into 1-based column `c` of a row, extending the row with
empty cells if the column lies beyond its current width. -/
def setCellInRow (row : List String) (c : Nat) (v : String) : List String :=
  if c ≤ row.length then row.set (c - 1) v
  else row ++ List.replicate (c - row.length - 1) "" ++ [v]

/-- `sheet.update_cell(r, c, v)` (1-based row/column): overwrite the cell when
the row exists, extend the grid when it lies past the current data. -/
def update_cell (g : Grid) (r c : Nat) (v : String) : Grid :=
  if r ≤ g.length then g.set (r - 1) (setCellInRow (g.getD (r - 1) []) c v)
  else g ++ List.replicate (r - g.length - 1) [] ++ [setCellInRow [] c v]

/-- `datetime.datetime.strftime(.., '%Y-%m-%d')`: `%m` and `%d` are zero-padded
to two digits. -/
def pad2 (n : Nat) : String :=
  if n < 10 then "0" ++ toString n else toString n

/-- The `today_str` computed in `record_question_answer`. -/
def format_date (y m d : Nat) : String :=
  toString y ++ "-" ++ pad2 m ++ "-" ++ pad2 d

/-- `record_question_answer` (src/ama-chatbot.py:268-280) acting on the `Q&A`
worksheet: `num_records = len(data[1:])`, then three `update_cell` calls on row
`num_records + 2`, columns 1..3.  The current date, an ambient real-time value,
is passed as `(y, m, d)`. -/
def record_question_answer (y m d : Nat) (g : Grid) (query answer : String) : Grid :=
  let num_records := (g.drop 1).length
  let today_str := format_date y m d
  let g1 := update_cell g (num_records + 2) 1 today_str
  let g2 := update_cell g1 (num_records + 2) 2 query
  update_cell g2 (num_records + 2) 3 answer

/-- `str(df.loc[row, 'embeddings'])` in `record_embeddings`: `str` of the
parsed list of floats, or `str('') = ''` for an absent embedding. -/
def str_embeddings (reprF : ℤ → String) (e : Entry) : String :=
  match e.embeddings with
  | none => ""
  | some l => pyStrList reprF l

/-- The loop body of `record_embeddings` (src/ama-chatbot.py:59-68): for each
dataframe row `i`, write `str(num_tokens)` into cell `(i+2, 3)` and
`str(embeddings)` into cell `(i+2, 4)` of the `info` worksheet. -/
def record_embeddings_aux (reprF : ℤ → String) : Grid → List Entry → Nat → Grid
  | g, [], _ => g
  | g, e :: rest, i =>
    let g1 := update_cell g (i + 2) 3 (toString e.num_tokens)
    let g2 := update_cell g1 (i + 2) 4 (str_embeddings reprF e)
    record_embeddings_aux reprF g2 rest (i + 1)

/-- `record_embeddings(df)` on the `info` worksheet grid. -/
def record_embeddings (reprF : ℤ → String) (df : List Entry) (g : Grid) : Grid :=
  record_embeddings_aux reprF g df 0

/-! ### Embeddings, similarity, ranking -/

/-- `get_embeddings` (src/ama-chatbot.py:76-107).  The two model backends are
oracles `embedO` (OpenAI `text-embedding-ada-002`) and `embedH` (local
`paraphrase-MiniLM-L6-v2`).  The Python body assigns `embedding` only in the
two recognized branches; for any other `method` the trailing
`return embedding` raises `UnboundLocalError`. -/
def get_embeddings (embedO embedH : String → List ℤ) (text : String) (method : String) :
    Except PyError (List ℤ) :=
  if method = "openai" then .ok (embedO text)
  else if method = "huggingface" then .ok (embedH text)
  else .error .UnboundLocalError

/-- `vector_similarity` (src/ama-chatbot.py:152-167): `np.dot` of the parsed
embedding cell with the query embedding.  On the empty-string placeholder
(`x = none`) `np.dot(np.array(''), ...)` raises (spec taxonomy: `DataError`). -/
def vector_similarity : Option (List ℤ) → List ℤ → Except PyError ℤ
  | none, _ => .error .DataError
  | some x, y => .ok (List.sum (List.zipWith (fun a b => a * b) x y))

/-- `df['embeddings'].apply(lambda x: vector_similarity(x, query_embedding))`:
row-by-row evaluation, aborting at the first raised exception. -/
def map_similarity (qe : List ℤ) : List Entry → Except PyError (List (Entry × ℤ))
  | [] => .ok []
  | e :: rest =>
    match vector_similarity e.embeddings qe with
    | .error err => .error err
    | .ok s =>
      match map_similarity qe rest with
      | .error err => .error err
      | .ok tail => .ok ((e, s) :: tail)

/-- One step of numpy's insertion sort (ascending by the `similarity` field):
the new element is placed before the first strictly-greater element, i.e.
after all elements with an equal key (the sort is stable in ascending
direction). -/
def npInsert (a : Entry × ℤ) : List (Entry × ℤ) → List (Entry × ℤ)
  | [] => [a]
  | b :: l => if a.2 < b.2 then a :: b :: l else b :: npInsert a l

/-- Ascending stable sort by similarity, processing rows left to right — the
result of `ndarray.argsort(kind='quicksort')` applied to the similarity
column: numpy's introsort runs plain insertion sort (stable) for arrays of at
most 15 elements, the regime this model is exact in; for larger inputs only
order-correctness (not tie order) is relied upon. -/
def npSortAsc (l : List (Entry × ℤ)) : List (Entry × ℤ) :=
  l.foldl (fun acc a => npInsert a acc) []

/-- `order_entries_by_similarity` (src/ama-chatbot.py:169-198): compute the
query embedding, attach a similarity to every row, then
`df.sort_values(by='similarity', ascending=False)`.  pandas implements the
descending sort (`nargsort`) as an ascending argsort followed by reversing the
index order, so ties come out in reversed original order. -/
def order_entries_by_similarity (embedO embedH : String → List ℤ) (query : String)
    (df : List Entry) (method : String) : Except PyError (List (Entry × ℤ)) :=
  match get_embeddings embedO embedH query method with
  | .error err => .error err
  | .ok qe =>
    match map_similarity qe df with
    | .error err => .error err
    | .ok sims => .ok ((npSortAsc sims).reverse)

/-! ### Combined field -/

/-- The `combined` column computed by `add_embeddings`
(src/ama-chatbot.py:131):
`"Title: " + df.section.str.strip() + "; Content: " + df.content.str.strip()`.
Note both fields are whitespace-stripped before substitution. -/
def combined (e : Entry) : String :=
  "Title: " ++ pyStrip wsChars e.sectionTitle ++ "; Content: " ++ pyStrip wsChars e.content

/-! ### Prompt construction -/

/-- `get_max_num_tokens` (src/ama-chatbot.py:206-210). -/
def get_max_num_tokens : Nat := 2046

/-- The `SEPARATOR` constant of `construct_prompt`. -/
def SEPARATOR : String := "\n* "

/-- An apostrophe character, used in the prompt header text. -/
def apos : String := String.mk [Char.ofNat 39]

/-- The triple-quoted `header` string of `construct_prompt`
(src/ama-chatbot.py:258-263), transcribed character for character (the
trailing `\x7bn` escape of the source plus the physical newline yield the
double newline before the closing indentation). -/
def header : String :=
  "\n    This question is asked by an interviewer or somebody who wants to know\n    more about me, Francois Ascani. Answer politely using the following context\n    but don" ++ apos ++ "t be afraid to have a candid, good-nature, and joking tone as\n    this is exactly who I am. Context:\n\n    "

/-- Python `content.replace("\n", " ")`: with a one-character pattern this is
exactly characterwise replacement of newlines by spaces. -/
def replace_newlines (s : String) : String :=
  String.mk (s.toList.map (fun c => if c = '\n' then ' ' else c))

/-- The token cost a packed entry contributes to `chosen_sections_len`:
`document_section.num_tokens + separator_len`. -/
def entry_cost (sep_len : Nat) (e : Entry) : Nat :=
  e.num_tokens + sep_len

/-- The packing loop of `construct_prompt` (src/ama-chatbot.py:248-256), viewed
at the level of the entries it keeps: add `num_tokens + separator_len` to the
running total, `break` as soon as the updated total exceeds the ceiling,
otherwise keep the entry and continue. -/
def pack_entries (sep_len max_len : Nat) : List Entry → Nat → List Entry
  | [], _ => []
  | e :: rest, total =>
    if max_len < total + e.num_tokens + sep_len then []
    else e :: pack_entries sep_len max_len rest (total + e.num_tokens + sep_len)

/-- The same packing loop, producing the `chosen_sections` strings:
`SEPARATOR + document_section.content.replace("\n", " ")` for each kept
entry. -/
def choose_sections (sep_len max_len : Nat) : List Entry → Nat → List String
  | [], _ => []
  | e :: rest, total =>
    if max_len < total + e.num_tokens + sep_len then []
    else (SEPARATOR ++ replace_newlines e.content) ::
      choose_sections sep_len max_len rest (total + e.num_tokens + sep_len)

/-- `construct_prompt` with the token ceiling `MAX_SECTION_LEN` as an explicit
parameter (the source fixes it to `get_max_num_tokens()`; the generalization
states the spec's small-ceiling scenario).  `sep_len` is
`len(tokenizer.tokenize(SEPARATOR))`, a value of the external GPT-2
tokenizer. -/
def construct_prompt_core (embedO embedH : String → List ℤ) (sep_len max_len : Nat)
    (query : String) (df : List Entry) (method : String) : Except PyError String :=
  match order_entries_by_similarity embedO embedH query df method with
  | .error err => .error err
  | .ok ranked =>
    .ok (header ++ String.join (choose_sections sep_len max_len (ranked.map Prod.fst) 0) ++
      ("\n\n Q: " ++ query ++ "\n A:"))

/-- `construct_prompt` (src/ama-chatbot.py:212-266). -/
def construct_prompt (embedO embedH : String → List ℤ) (sep_len : Nat) (query : String)
    (df : List Entry) (method : String) : Except PyError String :=
  construct_prompt_core embedO embedH sep_len get_max_num_tokens query df method

/-! ### Orchestrator -/

/-- `ama_chatbot` (src/ama-chatbot.py:282-330).  `complete` is the OpenAI
completion oracle (`text-davinci-003`); the returned text is stripped with
`.strip(" \n")`.  The `Q&A` worksheet `qa` is threaded through so that its
final state is observable: the body never calls `record_question_answer`
(despite its own docstring), so `qa` is returned unchanged. -/
def ama_chatbot (complete : String → String) (embedO embedH : String → List ℤ)
    (sep_len : Nat) (query : String) (df : List Entry) (method : String) (qa : Grid) :
    Except PyError (String × String × Grid) :=
  match construct_prompt embedO embedH sep_len query df method with
  | .error err => .error err
  | .ok prompt => .ok (pyStrip [' ', '\n'] (complete prompt), prompt, qa)

/-! ### Packing-loop lemmas -/

/-- If the running total is within the ceiling, packing keeps
`total + cost of everything packed` within the ceiling (the loop appends an
entry only when the updated total does not exceed `max_len`). -/
lemma pack_entries_total_le (sep_len max_len : Nat) :
    ∀ (l : List Entry) (total : Nat), total ≤ max_len →
      total + ((pack_entries sep_len max_len l total).map (entry_cost sep_len)).sum ≤ max_len := by
  intro l
  induction l with
  | nil => intro total h; simpa [pack_entries]
  | cons e rest ih =>
    intro total h
    by_cases hc : max_len < total + e.num_tokens + sep_len
    · simp [pack_entries, hc, h]
    · push_neg at hc
      have := ih (total + e.num_tokens + sep_len) hc
      simp only [pack_entries, if_neg (not_lt.mpr hc), List.map_cons, List.sum_cons, entry_cost] at *
      omega

/-- The packed entries form a leading segment of the input: the loop `break`s
at the first oversized entry and never skips-and-continues. -/
lemma pack_entries_append (sep_len max_len : Nat) :
    ∀ (l : List Entry) (total : Nat),
      ∃ suf, l = pack_entries sep_len max_len l total ++ suf := by
  intro l
  induction l with
  | nil => intro total; exact ⟨[], by simp [pack_entries]⟩
  | cons e rest ih =>
    intro total
    by_cases hc : max_len < total + e.num_tokens + sep_len
    · exact ⟨e :: rest, by simp [pack_entries, hc]⟩
    · obtain ⟨suf, hsuf⟩ := ih (total + e.num_tokens + sep_len)
      exact ⟨suf, by simp [pack_entries, hc]; exact hsuf⟩

/-- The cost of the first entry the loop rejected, added to the total cost of
everything packed, exceeds the ceiling. -/
lemma pack_entries_first_excluded (sep_len max_len : Nat) :
    ∀ (l : List Entry) (total : Nat) (e : Entry) (suf : List Entry),
      l = pack_entries sep_len max_len l total ++ e :: suf →
      max_len < total + ((pack_entries sep_len max_len l total).map (entry_cost sep_len)).sum
        + entry_cost sep_len e := by
  intro l
  induction l with
  | nil => intro total e suf h; simp [pack_entries] at h
  | cons a rest ih =>
    intro total e suf h
    by_cases hc : max_len < total + a.num_tokens + sep_len
    · simp only [pack_entries, if_pos hc, List.nil_append, List.cons.injEq] at h
      obtain ⟨rfl, rfl⟩ := h
      simp [pack_entries, hc, entry_cost]
      omega
    · simp only [pack_entries, if_neg hc, List.cons_append, List.cons.injEq] at h
      have := ih (total + a.num_tokens + sep_len) e suf h.2
      simp only [pack_entries, if_neg hc, List.map_cons, List.sum_cons, entry_cost] at *
      omega

/-- The string-producing loop is the entry-level loop followed by rendering
each kept entry as `SEPARATOR + content.replace("\n", " ")`. -/
lemma choose_sections_eq_map_pack (sep_len max_len : Nat) :
    ∀ (l : List Entry) (total : Nat),
      choose_sections sep_len max_len l total =
        (pack_entries sep_len max_len l total).map
          (fun e => SEPARATOR ++ replace_newlines e.content) := by
  intro l
  induction l with
  | nil => intro total; simp [choose_sections, pack_entries]
  | cons e rest ih =>
    intro total
    by_cases hc : max_len < total + e.num_tokens + sep_len
    · simp [choose_sections, pack_entries, hc]
    · simp [choose_sections, pack_entries, hc, ih]

/-- C1: the prompt assembler packs the ranked entries greedily with a running
token total starting at 0, each packed entry contributing
`num_tokens + separator token count`; the total cost of the packed entries
never exceeds `maxTokens = 2046`; the packed entries are a leading segment of
the ranked list (hard cutoff at the first oversized entry, no
skip-and-continue); and adding the first excluded entry's cost would exceed
the ceiling. -/
theorem construct_prompt_packing_correct (sep_len : Nat) (ranked : List Entry) :
    ((pack_entries sep_len get_max_num_tokens ranked 0).map (entry_cost sep_len)).sum
        ≤ get_max_num_tokens
    ∧ (∃ suf, ranked = pack_entries sep_len get_max_num_tokens ranked 0 ++ suf)
    ∧ ∀ e suf, ranked = pack_entries sep_len get_max_num_tokens ranked 0 ++ e :: suf →
        get_max_num_tokens <
          ((pack_entries sep_len get_max_num_tokens ranked 0).map (entry_cost sep_len)).sum
            + entry_cost sep_len e := by
  refine ⟨?_, pack_entries_append sep_len get_max_num_tokens ranked 0, ?_⟩
  · have := pack_entries_total_le sep_len get_max_num_tokens ranked 0 (Nat.zero_le _)
    omega
  · intro e suf h
    have := pack_entries_first_excluded sep_len get_max_num_tokens ranked 0 e suf h
    omega

/-- Witness for C1: with separator cost 3, a 2000-token entry is packed
(cost 2003 ≤ 2046) and a following 100-token entry is the first excluded one
(2003 + 103 > 2046). -/
theorem construct_prompt_packing_correct_witness :
    ((pack_entries 3 get_max_num_tokens
        [⟨"Job", "I am an engineer.", 2000, none⟩,
         ⟨"Hobbies", "I like chess.", 100, none⟩] 0).map (entry_cost 3)).sum
        ≤ get_max_num_tokens
    ∧ get_max_num_tokens <
        ((pack_entries 3 get_max_num_tokens
            [⟨"Job", "I am an engineer.", 2000, none⟩,
             ⟨"Hobbies", "I like chess.", 100, none⟩] 0).map (entry_cost 3)).sum
          + entry_cost 3 ⟨"Hobbies", "I like chess.", 100, none⟩ :=
  ⟨(construct_prompt_packing_correct 3
      [⟨"Job", "I am an engineer.", 2000, none⟩, ⟨"Hobbies", "I like chess.", 100, none⟩]).1,
   (construct_prompt_packing_correct 3
      [⟨"Job", "I am an engineer.", 2000, none⟩, ⟨"Hobbies", "I like chess.", 100, none⟩]).2.2
     ⟨"Hobbies", "I like chess.", 100, none⟩ [] (by decide)⟩

/-! ### Ranking lemmas -/

/-- Inserting into a list is a permutation of consing. -/
lemma npInsert_perm (a : Entry × ℤ) :
    ∀ (l : List (Entry × ℤ)), List.Perm (npInsert a l) (a :: l) := by
  intro l
  induction l with
  | nil => exact List.Perm.refl _
  | cons b l ih =>
    by_cases h : a.2 < b.2
    · simp [npInsert, h]
    · simp only [npInsert, if_neg h]
      exact (ih.cons b).trans (List.Perm.swap a b l)

lemma mem_npInsert {x a : Entry × ℤ} {l : List (Entry × ℤ)} :
    x ∈ npInsert a l ↔ x = a ∨ x ∈ l := by
  rw [(npInsert_perm a l).mem_iff, List.mem_cons]

/-- Insertion keeps the list sorted ascending by similarity. -/
lemma npInsert_pairwise (a : Entry × ℤ) :
    ∀ (l : List (Entry × ℤ)), l.Pairwise (fun x y => x.2 ≤ y.2) →
      (npInsert a l).Pairwise (fun x y => x.2 ≤ y.2) := by
  intro l
  induction l with
  | nil => intro _; simp [npInsert]
  | cons b l ih =>
    intro h
    rw [List.pairwise_cons] at h
    by_cases hab : a.2 < b.2
    · rw [show npInsert a (b :: l) = a :: b :: l by simp [npInsert, hab]]
      refine List.Pairwise.cons ?_ (List.Pairwise.cons h.1 h.2)
      intro x hx
      rcases List.mem_cons.mp hx with rfl | hx
      · exact le_of_lt hab
      · exact le_trans (le_of_lt hab) (h.1 x hx)
    · rw [show npInsert a (b :: l) = b :: npInsert a l by simp [npInsert, hab]]
      refine List.Pairwise.cons ?_ (ih h.2)
      intro x hx
      rcases mem_npInsert.mp hx with rfl | hx
      · exact le_of_not_lt hab
      · exact h.1 x hx

lemma foldl_npInsert_pairwise :
    ∀ (l acc : List (Entry × ℤ)), acc.Pairwise (fun x y => x.2 ≤ y.2) →
      (List.foldl (fun acc a => npInsert a acc) acc l).Pairwise (fun x y => x.2 ≤ y.2) := by
  intro l
  induction l with
  | nil => intro acc h; simpa
  | cons a l ih => intro acc h; exact ih _ (npInsert_pairwise a acc h)

lemma foldl_npInsert_perm :
    ∀ (l acc : List (Entry × ℤ)),
      List.Perm (List.foldl (fun acc a => npInsert a acc) acc l) (acc ++ l) := by
  intro l
  induction l with
  | nil => intro acc; simp
  | cons a l ih =>
    intro acc
    exact (ih _).trans (((npInsert_perm a acc).append_right l).trans List.perm_middle.symm)

/-- `map_similarity` keeps each entry paired with its similarity, in the
original row order. -/
lemma map_similarity_fst (qe : List ℤ) :
    ∀ (df : List Entry) (sims : List (Entry × ℤ)),
      map_similarity qe df = .ok sims → sims.map Prod.fst = df := by
  intro df
  induction df with
  | nil =>
    intro sims h
    simp only [map_similarity, Except.ok.injEq] at h
    simp [← h]
  | cons e rest ih =>
    intro sims h
    cases hv : vector_similarity e.embeddings qe with
    | error err => simp [map_similarity, hv] at h
    | ok s =>
      cases hm : map_similarity qe rest with
      | error err => simp [map_similarity, hv, hm] at h
      | ok tail =>
        simp only [map_similarity, hv, hm, Except.ok.injEq] at h
        simp [← h, ih tail hm]

/-- If some row's embedding cell is the empty placeholder, the row-wise
similarity computation raises `DataError` (the only error this path
produces). -/
lemma map_similarity_missing (qe : List ℤ) :
    ∀ (df : List Entry), (∃ e ∈ df, e.embeddings = none) →
      map_similarity qe df = .error .DataError := by
  intro df
  induction df with
  | nil => rintro ⟨e, he, _⟩; simp at he
  | cons a rest ih =>
    rintro ⟨e, he, hemb⟩
    cases ha : a.embeddings with
    | none => simp [map_similarity, vector_similarity, ha]
    | some v =>
      have hrest : e ∈ rest := by
        rcases List.mem_cons.mp he with rfl | h
        · rw [ha] at hemb; cases hemb
        · exact h
      simp [map_similarity, vector_similarity, ha, ih ⟨e, hrest, hemb⟩]

/-- C2 (amended): a successful ranking is sorted by descending similarity and
is a permutation of the input rows; tie order is NOT preserved (see the
counterexample: pandas reverses an ascending argsort, so equal-similarity
entries come out in reversed original order). -/
theorem order_entries_sorted_descending (embedO embedH : String → List ℤ) (query : String)
    (df : List Entry) (method : String) (out : List (Entry × ℤ))
    (h : order_entries_by_similarity embedO embedH query df method = .ok out) :
    out.Pairwise (fun a b => b.2 ≤ a.2) ∧ List.Perm (out.map Prod.fst) df := by
  cases hge : get_embeddings embedO embedH query method with
  | error err => simp [order_entries_by_similarity, hge] at h
  | ok qe =>
    cases hms : map_similarity qe df with
    | error err => simp [order_entries_by_similarity, hge, hms] at h
    | ok sims =>
      simp only [order_entries_by_similarity, hge, hms, Except.ok.injEq] at h
      subst h
      constructor
      · rw [List.pairwise_reverse]
        exact foldl_npInsert_pairwise sims [] List.Pairwise.nil
      · have h1 : List.Perm (npSortAsc sims) sims := by
          simpa using foldl_npInsert_perm sims []
        have h2 : List.Perm (((npSortAsc sims).reverse).map Prod.fst) (sims.map Prod.fst) := by
          rw [List.map_reverse]
          exact ((npSortAsc sims).map Prod.fst).reverse_perm.trans (h1.map Prod.fst)
        rwa [map_similarity_fst qe df sims hms] at h2

/-- Witness for the amended C2 at a concrete ranking call. -/
theorem order_entries_sorted_descending_witness :
    ([((⟨"Job", "I am an engineer.", 8, some [2]⟩ : Entry), (2 : ℤ)),
      ((⟨"Hobbies", "I like chess.", 6, some [1]⟩ : Entry), (1 : ℤ))].Pairwise
        (fun a b => b.2 ≤ a.2))
    ∧ List.Perm
        ([((⟨"Job", "I am an engineer.", 8, some [2]⟩ : Entry), (2 : ℤ)),
          ((⟨"Hobbies", "I like chess.", 6, some [1]⟩ : Entry), (1 : ℤ))].map Prod.fst)
        [⟨"Hobbies", "I like chess.", 6, some [1]⟩, ⟨"Job", "I am an engineer.", 8, some [2]⟩] :=
  order_entries_sorted_descending (fun _ => [1]) (fun _ => [1]) "What do you do?"
    [⟨"Hobbies", "I like chess.", 6, some [1]⟩, ⟨"Job", "I am an engineer.", 8, some [2]⟩]
    "openai" _ (by decide)

/-- C2 counterexample: two rows with EQUAL similarity come back in REVERSED
original order, so the claimed tie stability is false.  With both embeddings
`[1]` and query embedding `[1]`, entries A and B tie at similarity 1; the
claim predicts output order A, B but the code produces B, A
(`sort_values(ascending=False)` reverses a stable ascending argsort). -/
theorem order_entries_tie_reversed_cex :
    order_entries_by_similarity (fun _ => [1]) (fun _ => [1]) "q"
        [⟨"A", "alpha", 1, some [1]⟩, ⟨"B", "beta", 1, some [1]⟩] "openai"
      = .ok [((⟨"B", "beta", 1, some [1]⟩ : Entry), (1 : ℤ)),
             ((⟨"A", "alpha", 1, some [1]⟩ : Entry), (1 : ℤ))]
    ∧ order_entries_by_similarity (fun _ => [1]) (fun _ => [1]) "q"
        [⟨"A", "alpha", 1, some [1]⟩, ⟨"B", "beta", 1, some [1]⟩] "openai"
      ≠ .ok [((⟨"A", "alpha", 1, some [1]⟩ : Entry), (1 : ℤ)),
             ((⟨"B", "beta", 1, some [1]⟩ : Entry), (1 : ℤ))] := by
  decide

/-- C4: ranking a list containing an entry whose embedding is absent fails
with `DataError` (spec taxonomy for the exception raised inside `np.dot` on
the empty-string placeholder), provided the method selects one of the two
embedding backends so that a query embedding exists at all. -/
theorem order_entries_missing_embedding_fails (embedO embedH : String → List ℤ)
    (query : String) (df : List Entry) (method : String) (e : Entry)
    (hmethod : method = "openai" ∨ method = "huggingface")
    (hmem : e ∈ df) (hemb : e.embeddings = none) :
    order_entries_by_similarity embedO embedH query df method = .error .DataError := by
  rcases hmethod with rfl | rfl
  · have hge : get_embeddings embedO embedH query "openai" = .ok (embedO query) := rfl
    simp [order_entries_by_similarity, hge,
      map_similarity_missing (embedO query) df ⟨e, hmem, hemb⟩]
  · have hge : get_embeddings embedO embedH query "huggingface" = .ok (embedH query) := rfl
    simp [order_entries_by_similarity, hge,
      map_similarity_missing (embedH query) df ⟨e, hmem, hemb⟩]

/-- Witness for C4. -/
theorem order_entries_missing_embedding_fails_witness :
    order_entries_by_similarity (fun _ => [1]) (fun _ => [1]) "q"
        [⟨"A", "alpha", 1, none⟩] "openai" = .error .DataError :=
  order_entries_missing_embedding_fails (fun _ => [1]) (fun _ => [1]) "q"
    [⟨"A", "alpha", 1, none⟩] "openai" ⟨"A", "alpha", 1, none⟩
    (Or.inl rfl) (by decide) rfl

/-- C10: for a `method` other than `'openai'` and `'huggingface'`,
`get_embeddings` assigns no embedding and the trailing `return embedding`
raises (`UnboundLocalError`): the function is total only under the
precondition that `method` is one of the two recognized values. -/
theorem get_embeddings_unknown_method (embedO embedH : String → List ℤ)
    (text method : String) (h1 : method ≠ "openai") (h2 : method ≠ "huggingface") :
    get_embeddings embedO embedH text method = .error .UnboundLocalError := by
  simp [get_embeddings, h1, h2]

/-- Witness for C10. -/
theorem get_embeddings_unknown_method_witness :
    get_embeddings (fun _ => [1]) (fun _ => [1]) "hello" "cohere" = .error .UnboundLocalError :=
  get_embeddings_unknown_method (fun _ => [1]) (fun _ => [1]) "hello" "cohere"
    (by decide) (by decide)

/-! ### Prompt shape, orchestrator, combined field -/

/-- When already the highest-ranked entry exceeds the ceiling from a zero
running total, nothing is packed. -/
lemma choose_sections_nil_of_oversized (sep_len max_len : Nat) (l : List Entry)
    (h : ∀ e ∈ l, max_len < e.num_tokens + sep_len) :
    choose_sections sep_len max_len l 0 = [] := by
  cases l with
  | nil => rfl
  | cons e rest =>
    have he := h e (List.mem_cons_self e rest)
    simp [choose_sections, he]

/-- C7: a successfully assembled prompt is exactly the fixed instructional
header, followed by the chosen sections (each prefixed by the separator, with
newlines in the content replaced by spaces), followed by the literal footer;
when no section fits (every entry cost exceeds the ceiling, e.g. ceiling 5
against a smallest entry cost of 6), the prompt is header + footer only; and
`construct_prompt` is the ceiling instantiated at `get_max_num_tokens`. -/
theorem construct_prompt_shape (embedO embedH : String → List ℤ) (sep_len max_len : Nat)
    (query : String) (df : List Entry) (method : String) (ranked : List (Entry × ℤ))
    (h : order_entries_by_similarity embedO embedH query df method = .ok ranked) :
    construct_prompt_core embedO embedH sep_len max_len query df method =
      .ok (header ++ String.join (choose_sections sep_len max_len (ranked.map Prod.fst) 0) ++
        ("\n\n Q: " ++ query ++ "\n A:"))
    ∧ ((∀ e ∈ ranked.map Prod.fst, max_len < e.num_tokens + sep_len) →
        construct_prompt_core embedO embedH sep_len max_len query df method =
          .ok (header ++ ("\n\n Q: " ++ query ++ "\n A:")))
    ∧ construct_prompt embedO embedH sep_len query df method =
        construct_prompt_core embedO embedH sep_len get_max_num_tokens query df method := by
  refine ⟨by simp [construct_prompt_core, h], ?_, rfl⟩
  intro hall
  simp only [construct_prompt_core, h,
    choose_sections_nil_of_oversized sep_len max_len (ranked.map Prod.fst) hall,
    show String.join [] = "" from rfl, String.append_empty]

/-- Witness for C7, at the spec's scenario: ceiling 5, single ranked entry of
cost 3 + 3 = 6, so the assembled prompt is header + footer with zero
sections. -/
theorem construct_prompt_shape_witness :
    construct_prompt_core (fun _ => [1]) (fun _ => [1]) 3 5 "What do you do?"
        [⟨"Hobbies", "I like chess.", 3, some [1]⟩] "openai"
      = .ok (header ++ ("\n\n Q: What do you do?\n A:")) :=
  (construct_prompt_shape (fun _ => [1]) (fun _ => [1]) 3 5 "What do you do?"
      [⟨"Hobbies", "I like chess.", 3, some [1]⟩] "openai"
      [(⟨"Hobbies", "I like chess.", 3, some [1]⟩, 1)] (by decide)).2.1
    (by decide)

/-- C3: the orchestrator `ama_chatbot` returns the `Q&A` worksheet unchanged —
it never calls `record_question_answer`, although its own docstring says the
interaction is recorded.  The claimed append of one interaction row does not
happen. -/
theorem ama_chatbot_log_unchanged (complete : String → String)
    (embedO embedH : String → List ℤ) (sep_len : Nat) (query : String) (df : List Entry)
    (method : String) (qa : Grid) (r : String × String × Grid)
    (h : ama_chatbot complete embedO embedH sep_len query df method qa = .ok r) :
    r.2.2 = qa := by
  cases hcp : construct_prompt embedO embedH sep_len query df method with
  | error err => simp [ama_chatbot, hcp] at h
  | ok prompt =>
    simp only [ama_chatbot, hcp, Except.ok.injEq] at h
    rw [← h]

set_option maxRecDepth 20000 in
/-- Witness for C3's theorem: a fully evaluated orchestration call on a
one-row log returns that log with still exactly one row (nothing appended). -/
theorem ama_chatbot_log_unchanged_witness :
    ((pyStrip [' ', '\n'] " hello\n", header ++ "\n* alpha" ++ "\n\n Q: hi\n A:",
        ([["date", "query", "answer"]] : Grid)) : String × String × Grid).2.2
      = [["date", "query", "answer"]] :=
  ama_chatbot_log_unchanged (fun _ => " hello\n") (fun _ => [1]) (fun _ => [1]) 3 "hi"
    [⟨"A", "alpha", 3, some [1]⟩] "openai" [["date", "query", "answer"]]
    (pyStrip [' ', '\n'] " hello\n", header ++ "\n* alpha" ++ "\n\n Q: hi\n A:",
      [["date", "query", "answer"]]) (by decide)

/-- C6 counterexample: `add_embeddings` strips whitespace from both fields
before substituting them into the template
(`df.section.str.strip()`, `df.content.str.strip()`), so for a section with
surrounding whitespace the combined field differs from the claimed raw
template. -/
theorem combined_strips_whitespace_cex :
    combined ⟨" Hobbies ", "I like chess.", 6, none⟩
        ≠ "Title: " ++ " Hobbies " ++ "; Content: " ++ "I like chess."
    ∧ combined ⟨" Hobbies ", "I like chess.", 6, none⟩
        = "Title: Hobbies; Content: I like chess." := by
  decide

/-- C6 (amended): the combined field is the fixed template applied to the
whitespace-stripped section and content; equivalently, the original claim
holds exactly when both fields carry no surrounding whitespace. -/
theorem combined_template_of_stripped (e : Entry)
    (h1 : pyStrip wsChars e.sectionTitle = e.sectionTitle)
    (h2 : pyStrip wsChars e.content = e.content) :
    combined e = "Title: " ++ e.sectionTitle ++ "; Content: " ++ e.content := by
  rw [combined, h1, h2]

/-- Witness for the amended C6. -/
theorem combined_template_of_stripped_witness :
    combined ⟨"Hobbies", "I like chess.", 6, none⟩
      = "Title: " ++ "Hobbies" ++ "; Content: " ++ "I like chess." :=
  combined_template_of_stripped ⟨"Hobbies", "I like chess.", 6, none⟩ (by decide) (by decide)

/-! ### Grid lemmas -/

lemma getD_set {α : Type} : ∀ (l : List α) (n m : Nat) (a d : α),
    (l.set n a).getD m d = if m = n ∧ n < l.length then a else l.getD m d
  | [], n, m, a, d => by simp
  | x :: xs, 0, 0, a, d => by simp
  | x :: xs, 0, m + 1, a, d => by simp
  | x :: xs, n + 1, 0, a, d => by simp
  | x :: xs, n + 1, m + 1, a, d => by
    simp only [List.set, List.getD_cons_succ, List.length_cons]
    rw [getD_set xs n m a d,
      if_congr (by omega : (m = n ∧ n < xs.length) ↔ (m + 1 = n + 1 ∧ n + 1 < xs.length + 1))
        rfl rfl]

lemma getD_append_length {α : Type} : ∀ (g : List α) (x d : α),
    (g ++ [x]).getD g.length d = x
  | [], x, d => rfl
  | y :: g, x, d => by
    simp [List.getD_cons_succ, getD_append_length g x d]

lemma set_append_length {α : Type} : ∀ (g : List α) (x y : α),
    (g ++ [x]).set g.length y = g ++ [y]
  | [], x, y => rfl
  | z :: g, x, y => by
    simp [List.set, set_append_length g x y]

lemma getD_mem {α : Type} : ∀ (l : List α) (n : Nat) (d : α), n < l.length → l.getD n d ∈ l
  | [], n, d, h => by simp at h
  | x :: xs, 0, d, _ => by simp
  | x :: xs, n + 1, d, h => by
    simp only [List.getD_cons_succ]
    exact List.mem_cons_of_mem x (getD_mem xs n d (by simp at h; omega))

lemma getD_mem_drop_one {α : Type} : ∀ (g : List α) (k : Nat) (d : α),
    1 ≤ k → k < g.length → g.getD k d ∈ g.drop 1
  | [], k, d, _, h2 => by simp at h2
  | x :: xs, 0, d, h1, _ => absurd h1 (by decide)
  | x :: xs, k + 1, d, _, h2 => by
    simp only [List.getD_cons_succ, List.drop_succ_cons, List.drop_zero]
    exact getD_mem xs k d (by simp at h2; omega)

/-- Writing into the row just past the end of the grid appends one new row. -/
lemma update_cell_new_row (g : Grid) (c : Nat) (v : String) :
    update_cell g (g.length + 1) c v = g ++ [setCellInRow [] c v] := by
  unfold update_cell
  rw [if_neg (by omega), show g.length + 1 - g.length - 1 = 0 from by omega]
  simp

/-- Writing into the last row of a grid of the shape `g ++ [row]`. -/
lemma update_cell_last (g : Grid) (row : List String) (c : Nat) (v : String) :
    update_cell (g ++ [row]) (g.length + 1) c v = g ++ [setCellInRow row c v] := by
  unfold update_cell
  rw [if_pos (by simp)]
  rw [show g.length + 1 - 1 = g.length from rfl]
  rw [show (g ++ [row]).getD g.length [] = row from getD_append_length g row []]
  exact set_append_length g row (setCellInRow row c v)

/-- In-range `update_cell` keeps the number of rows. -/
lemma update_cell_length_of_le (g : Grid) (r c : Nat) (v : String) (h : r ≤ g.length) :
    (update_cell g r c v).length = g.length := by
  unfold update_cell
  rw [if_pos h]
  simp

/-- C8: `record_question_answer` on a log grid with its header row present
appends exactly one row, at the next free row (current row count + 1),
containing the formatted date, the query and the answer. -/
theorem record_question_answer_appends (y mo dy : Nat) (g : Grid) (query answer : String)
    (hg : g ≠ []) :
    record_question_answer y mo dy g query answer
      = g ++ [[format_date y mo dy, query, answer]] := by
  have hlen : 1 ≤ g.length := List.length_pos.mpr hg
  have hidx : (g.drop 1).length + 2 = g.length + 1 := by
    simp only [List.length_drop]
    omega
  simp only [record_question_answer, hidx]
  rw [update_cell_new_row]
  rw [update_cell_last, update_cell_last]
  rfl

/-- Witness for C8, the spec's scenario: an empty log (header only), query
"hi", answer "hello" on 2026-10-12 yields exactly one data row. -/
theorem record_question_answer_appends_witness :
    ([["date", "query", "answer"]] : Grid) ≠ []
    ∧ record_question_answer 2026 10 12 [["date", "query", "answer"]] "hi" "hello"
        = [["date", "query", "answer"], ["2026-10-12", "hi", "hello"]] :=
  ⟨by decide,
   (record_question_answer_appends 2026 10 12 [["date", "query", "answer"]] "hi" "hello"
      (by decide)).trans (by decide)⟩

/-- Length preservation for the `record_embeddings` loop over in-range rows. -/
lemma record_embeddings_aux_length (reprF : ℤ → String) :
    ∀ (df : List Entry) (g : Grid) (i : Nat), i + 1 + df.length ≤ g.length →
      (record_embeddings_aux reprF g df i).length = g.length := by
  intro df
  induction df with
  | nil => intro g i _; rfl
  | cons e rest ih =>
    intro g i hlen
    simp only [List.length_cons] at hlen
    have h1 : i + 2 ≤ g.length := by omega
    have l1 : (update_cell g (i + 2) 3 (toString e.num_tokens)).length = g.length :=
      update_cell_length_of_le g (i + 2) 3 _ h1
    have h2 : i + 2 ≤ (update_cell g (i + 2) 3 (toString e.num_tokens)).length := by
      rw [l1]; exact h1
    have l2 : (update_cell (update_cell g (i + 2) 3 (toString e.num_tokens)) (i + 2) 4
        (str_embeddings reprF e)).length = g.length := by
      rw [update_cell_length_of_le _ _ _ _ h2, l1]
    simp only [record_embeddings_aux]
    rw [ih _ (i + 1) (by rw [l2]; omega), l2]

/-- Two consecutive `update_cell` writes into columns 3 and 4 of an existing
row of width at least 4 amount to one `List.set` of that row with its third
and fourth cells replaced. -/
lemma update_two_cells (g : Grid) (i : Nat) (sv wv : String)
    (hin : i + 2 ≤ g.length) (hrow : 4 ≤ (g.getD (i + 1) []).length) :
    update_cell (update_cell g (i + 2) 3 sv) (i + 2) 4 wv
      = g.set (i + 1) (((g.getD (i + 1) []).set 2 sv).set 3 wv) := by
  have e1 : update_cell g (i + 2) 3 sv
      = g.set (i + 1) ((g.getD (i + 1) []).set 2 sv) := by
    unfold update_cell
    rw [if_pos hin, show i + 2 - 1 = i + 1 from by omega]
    unfold setCellInRow
    rw [if_pos (by omega), show (3 : Nat) - 1 = 2 from rfl]
  rw [e1]
  unfold update_cell
  rw [if_pos (by simp only [List.length_set]; omega),
    show i + 2 - 1 = i + 1 from by omega,
    getD_set, if_pos ⟨rfl, by omega⟩]
  unfold setCellInRow
  rw [if_pos (by simp only [List.length_set]; omega),
    show (4 : Nat) - 1 = 3 from rfl, List.set_set]

/-- Pointwise description of the `record_embeddings` loop: data row `i + 1 + j`
gets its third and fourth columns overwritten with the stringified
`num_tokens` and `embeddings` of entry `j`; every other row is untouched. -/
lemma record_embeddings_aux_getD (reprF : ℤ → String) :
    ∀ (df : List Entry) (g : Grid) (i : Nat),
      i + 1 + df.length ≤ g.length →
      (∀ k, i + 1 ≤ k → k < i + 1 + df.length → 4 ≤ (g.getD k []).length) →
      ∀ j, (record_embeddings_aux reprF g df i).getD j [] =
        if i + 1 ≤ j ∧ j < i + 1 + df.length then
          ((g.getD j []).set 2 (toString ((df.getD (j - (i + 1)) default).num_tokens))).set 3
            (str_embeddings reprF (df.getD (j - (i + 1)) default))
        else g.getD j [] := by
  intro df
  induction df with
  | nil =>
    intro g i _ _ j
    simp only [record_embeddings_aux, List.length_nil]
    rw [if_neg (by omega)]
  | cons e rest ih =>
    intro g i hlen hrows j
    simp only [List.length_cons] at hlen hrows
    have hin : i + 2 ≤ g.length := by omega
    have hrow : 4 ≤ (g.getD (i + 1) []).length := hrows (i + 1) (by omega) (by omega)
    simp only [record_embeddings_aux]
    rw [update_two_cells g i (toString e.num_tokens) (str_embeddings reprF e) hin hrow]
    set nr := ((g.getD (i + 1) []).set 2 (toString e.num_tokens)).set 3
      (str_embeddings reprF e) with hnr
    have hG : ∀ k, (g.set (i + 1) nr).getD k [] = if k = i + 1 then nr else g.getD k [] := by
      intro k
      rw [getD_set]
      by_cases hk : k = i + 1
      · rw [if_pos ⟨hk, by omega⟩, if_pos hk]
      · rw [if_neg (fun hc => hk hc.1), if_neg hk]
    rw [ih (g.set (i + 1) nr) (i + 1)
      (by simp only [List.length_set]; omega)
      (fun k hk1 hk2 => by
        rw [hG k, if_neg (by omega)]
        exact hrows k (by omega) (by omega)) j]
    simp only [List.length_cons]
    split_ifs with h1 h2
    · -- row strictly below the current one: handled by the recursive call
      rw [hG j, if_neg (by omega),
        show j - (i + 1) = (j - (i + 1 + 1)) + 1 from by omega, List.getD_cons_succ]
    · exact (h2 (by omega)).elim
    · -- the current row: written by this iteration, untouched afterwards
      have hj : j = i + 1 := by omega
      subst hj
      rw [hG (i + 1), if_pos rfl, show i + 1 - (i + 1) = 0 from by omega,
        List.getD_cons_zero, ← hnr]
    · rw [hG j, if_neg (by omega)]

/-- C9: `record_embeddings` writes only the `num_tokens` column (3) and the
`embeddings` column (4) of each entry's row: the grid keeps its row count, the
header row is unchanged, and in every data row all cells outside columns 3 and
4 are unchanged while those two receive the stringified computed fields. -/
theorem record_embeddings_frame (reprF : ℤ → String) (df : List Entry) (g : Grid)
    (hlen : g.length = df.length + 1)
    (hrows : ∀ row ∈ g.drop 1, 4 ≤ row.length) :
    (record_embeddings reprF df g).length = g.length
    ∧ (record_embeddings reprF df g).getD 0 [] = g.getD 0 []
    ∧ ∀ i, i < df.length →
        (∀ c, c ≠ 2 → c ≠ 3 →
          ((record_embeddings reprF df g).getD (i + 1) []).getD c ""
            = (g.getD (i + 1) []).getD c "")
        ∧ ((record_embeddings reprF df g).getD (i + 1) []).getD 2 ""
            = toString ((df.getD i default).num_tokens)
        ∧ ((record_embeddings reprF df g).getD (i + 1) []).getD 3 ""
            = str_embeddings reprF (df.getD i default) := by
  have hidx : ∀ k, 1 ≤ k → k < 1 + df.length → 4 ≤ (g.getD k []).length := by
    intro k h1 h2
    exact hrows _ (getD_mem_drop_one g k [] h1 (by omega))
  have hlen' : 0 + 1 + df.length ≤ g.length := by omega
  have hpt := record_embeddings_aux_getD reprF df g 0 hlen'
    (fun k hk1 hk2 => hidx k hk1 (by omega))
  simp only [record_embeddings]
  refine ⟨record_embeddings_aux_length reprF df g 0 hlen', ?_, ?_⟩
  · rw [hpt 0, if_neg (by omega)]
  · intro i hi
    have hrow := hpt (i + 1)
    rw [if_pos ⟨by omega, by omega⟩, show i + 1 - (0 + 1) = i from by omega] at hrow
    have hrl : 4 ≤ (g.getD (i + 1) []).length := hidx (i + 1) (by omega) (by omega)
    refine ⟨?_, ?_, ?_⟩
    · intro c hc2 hc3
      rw [hrow, getD_set, if_neg (fun h => hc3 h.1), getD_set, if_neg (fun h => hc2 h.1)]
    · rw [hrow, getD_set, if_neg (fun h => absurd h.1 (by decide)),
        getD_set, if_pos ⟨rfl, by omega⟩]
    · rw [hrow, getD_set, if_pos ⟨rfl, by simp only [List.length_set]; omega⟩]

/-- Witness for C9 on a two-row grid (header plus one data row): section,
content and header cells are unchanged, the computed columns receive the
stringified values. -/
theorem record_embeddings_frame_witness :
    ((record_embeddings (fun z => toString z) [⟨"A", "alpha", 7, some [1, 2]⟩]
        [["section", "content", "num_tokens", "embeddings"],
         ["A", "alpha", "", ""]]).getD 1 []).getD 0 "" = "A"
    ∧ ((record_embeddings (fun z => toString z) [⟨"A", "alpha", 7, some [1, 2]⟩]
        [["section", "content", "num_tokens", "embeddings"],
         ["A", "alpha", "", ""]]).getD 1 []).getD 2 "" = "7"
    ∧ ((record_embeddings (fun z => toString z) [⟨"A", "alpha", 7, some [1, 2]⟩]
        [["section", "content", "num_tokens", "embeddings"],
         ["A", "alpha", "", ""]]).getD 1 []).getD 3 "" = "[1, 2]"
    ∧ (record_embeddings (fun z => toString z) [⟨"A", "alpha", 7, some [1, 2]⟩]
        [["section", "content", "num_tokens", "embeddings"],
         ["A", "alpha", "", ""]]).getD 0 []
      = ["section", "content", "num_tokens", "embeddings"] := by
  have T := record_embeddings_frame (fun z => toString z) [⟨"A", "alpha", 7, some [1, 2]⟩]
    [["section", "content", "num_tokens", "embeddings"], ["A", "alpha", "", ""]]
    (by decide) (by decide)
  exact ⟨((T.2.2 0 (by decide)).1 0 (by decide) (by decide)).trans (by decide),
    ((T.2.2 0 (by decide)).2.1).trans (by decide),
    ((T.2.2 0 (by decide)).2.2).trans (by decide),
    (T.2.1).trans (by decide)⟩

/-! ### Parse / write round-trip lemmas -/

lemma mk_toList : ∀ (s : String), String.mk s.toList = s
  | ⟨_⟩ => rfl

lemma space_append (s : String) : " " ++ s = String.mk (' ' :: s.toList) := by
  cases s
  rfl

lemma dropWhile_nonmember (p : Char → Bool) :
    ∀ (l : List Char), (∀ c ∈ l, p c = false) → l.dropWhile p = l
  | [], _ => rfl
  | c :: l, h => by
    rw [List.dropWhile_cons, if_neg (by simp [h c (List.mem_cons_self c l)])]

/-- `"[" + mid + "]"` stripped of surrounding brackets is `mid`, provided
`mid` is nonempty and bracket-free. -/
lemma stripCore_wrap (mid : List Char) (hne : mid ≠ [])
    (hmem : ∀ c ∈ mid, decide (c ∈ bracketChars) = false) :
    stripCore bracketChars ('[' :: mid ++ [']']) = mid := by
  unfold stripCore
  have h1 : ('[' :: (mid ++ [']'])).dropWhile (fun c => decide (c ∈ bracketChars))
      = mid ++ [']'] := by
    rw [List.dropWhile_cons, if_pos (by decide)]
    cases mid with
    | nil => exact absurd rfl hne
    | cons c0 mid' =>
      rw [List.cons_append, List.dropWhile_cons,
        if_neg (by simp [hmem c0 (List.mem_cons_self c0 mid')])]
  rw [show ('[' :: mid ++ [']']) = ('[' :: (mid ++ [']'])) from rfl, h1]
  have h2 : (mid ++ [']']).reverse = ']' :: mid.reverse := by simp
  rw [h2, List.dropWhile_cons, if_pos (by decide),
    dropWhile_nonmember _ mid.reverse (fun c hc => hmem c (List.mem_reverse.mp hc)),
    List.reverse_reverse]

lemma splitOnCommaChars_nocomma : ∀ (t : List Char), (∀ c ∈ t, c ≠ ',') →
    splitOnCommaChars t = [t]
  | [], _ => rfl
  | c :: t, h => by
    simp only [splitOnCommaChars]
    rw [if_neg (h c (List.mem_cons_self c t)),
      splitOnCommaChars_nocomma t (fun x hx => h x (List.mem_cons_of_mem c hx))]

lemma splitOnCommaChars_append (t r : List Char) (h : ∀ c ∈ t, c ≠ ',') :
    splitOnCommaChars (t ++ ',' :: r) = t :: splitOnCommaChars r := by
  induction t with
  | nil => simp [splitOnCommaChars]
  | cons c t ih =>
    simp only [List.cons_append, splitOnCommaChars, List.append_eq]
    rw [if_neg (h c (List.mem_cons_self c t)),
      ih (fun x hx => h x (List.mem_cons_of_mem c hx))]

/-- Splitting the `", "`-joined representation on commas yields the first
token followed by the remaining tokens each carrying the leading space of the
separator. -/
lemma splitOnCommaChars_joinCS : ∀ (ts : List (List Char)) (t0 : List Char),
    (∀ c ∈ t0, c ≠ ',') → (∀ t ∈ ts, ∀ c ∈ t, c ≠ ',') →
    splitOnCommaChars (joinCS (t0 :: ts)) = t0 :: ts.map (fun t => ' ' :: t) := by
  intro ts
  induction ts with
  | nil => intro t0 h0 _; simp [joinCS, splitOnCommaChars_nocomma t0 h0]
  | cons t1 ts' ih =>
    intro t0 h0 hts
    rw [show joinCS (t0 :: t1 :: ts') = t0 ++ ',' :: ' ' :: joinCS (t1 :: ts') from rfl,
      splitOnCommaChars_append t0 _ h0]
    have hsw : ' ' :: joinCS (t1 :: ts') = joinCS ((' ' :: t1) :: ts') := by
      cases ts' with
      | nil => rfl
      | cons t2 ts'' => rfl
    rw [hsw, ih (' ' :: t1) ?_ ?_]
    · simp
    · intro c hc
      rcases List.mem_cons.mp hc with rfl | hc
      · decide
      · exact hts t1 (List.mem_cons_self t1 ts') c hc
    · intro t ht c hc
      exact hts t (List.mem_cons_of_mem t1 ht) c hc

lemma joinCS_ne_nil (t0 : List Char) (ts : List (List Char)) (h : t0 ≠ []) :
    joinCS (t0 :: ts) ≠ [] := by
  cases ts with
  | nil => simpa [joinCS]
  | cons t1 ts' =>
    rw [show joinCS (t0 :: t1 :: ts') = t0 ++ ',' :: ' ' :: joinCS (t1 :: ts') from rfl]
    simp

lemma mem_joinCS : ∀ (ts : List (List Char)) (c : Char), c ∈ joinCS ts →
    c = ',' ∨ c = ' ' ∨ ∃ t ∈ ts, c ∈ t := by
  intro ts
  induction ts with
  | nil => intro c hc; simp [joinCS] at hc
  | cons t ts ih =>
    intro c hc
    cases ts with
    | nil =>
      right; right
      exact ⟨t, List.mem_cons_self t [], by simpa [joinCS] using hc⟩
    | cons t1 ts' =>
      rw [show joinCS (t :: t1 :: ts') = t ++ ',' :: ' ' :: joinCS (t1 :: ts') from rfl] at hc
      rcases List.mem_append.mp hc with h | h
      · right; right; exact ⟨t, List.mem_cons_self t _, h⟩
      · rcases List.mem_cons.mp h with rfl | h
        · left; rfl
        · rcases List.mem_cons.mp h with rfl | h
          · right; left; rfl
          · rcases ih c h with h | h | ⟨u, hu, hcu⟩
            · left; exact h
            · right; left; exact h
            · right; right; exact ⟨u, List.mem_cons_of_mem t hu, hcu⟩

lemma pyStrList_ne_empty {α : Type} (reprF : α → String) (l : List α) :
    pyStrList reprF l ≠ "" := by
  intro h
  have h2 : '[' :: (joinCS (l.map fun x => (reprF x).toList) ++ [']']) = ([] : List Char) :=
    congrArg String.data h
  exact List.cons_ne_nil _ _ h2

lemma map_float_spaced {α : Type} (pyFloat : String → Option α) (reprF : α → String) :
    ∀ (l : List α), (∀ x ∈ l, pyFloat (" " ++ reprF x) = some x) →
      map_float pyFloat (l.map (fun x => String.mk (' ' :: (reprF x).toList))) = some l := by
  intro l
  induction l with
  | nil => intro _; rfl
  | cons x l ih =>
    intro h
    have hx : pyFloat (String.mk (' ' :: (reprF x).toList)) = some x := by
      rw [← space_append]
      exact h x (List.mem_cons_self x l)
    simp only [List.map_cons, map_float, hx,
      ih (fun y hy => h y (List.mem_cons_of_mem x hy))]

/-- C5 (amended): writing a NONEMPTY float sequence with the store's write
format (`str` of the list) and parsing the cell back with `parse_numbers`
recovers the original sequence, given that the element-level `float`/`repr`
pair round-trips (Python guarantees `float(repr(x)) == x`), tolerates the
separator's leading space, and produces neither commas nor brackets. -/
theorem parse_numbers_roundtrip {α : Type} (pyFloat : String → Option α) (reprF : α → String)
    (l : List α) (hne : l ≠ [])
    (h1 : ∀ x ∈ l, pyFloat (reprF x) = some x)
    (h2 : ∀ x ∈ l, pyFloat (" " ++ reprF x) = some x)
    (h3 : ∀ x ∈ l, ∀ c ∈ (reprF x).toList, c ≠ ',' ∧ c ∉ bracketChars)
    (h4 : ∀ x ∈ l, reprF x ≠ "") :
    parse_numbers pyFloat (pyStrList reprF l) = .ok (some l) := by
  obtain ⟨x0, l', rfl⟩ := List.exists_cons_of_ne_nil hne
  unfold parse_numbers
  rw [if_neg (pyStrList_ne_empty reprF (x0 :: l'))]
  have htl : (pyStrList reprF (x0 :: l')).toList
      = '[' :: (joinCS ((x0 :: l').map fun x => (reprF x).toList) ++ [']']) := rfl
  rw [htl]
  have h0ne : (reprF x0).toList ≠ [] := by
    intro hc
    exact h4 x0 (List.mem_cons_self x0 l') (by rw [← mk_toList (reprF x0), hc])
  have hmem : ∀ c ∈ joinCS ((x0 :: l').map fun x => (reprF x).toList),
      decide (c ∈ bracketChars) = false := by
    intro c hc
    rcases mem_joinCS _ c hc with rfl | rfl | ⟨t, ht, hct⟩
    · decide
    · decide
    · obtain ⟨x, hx, rfl⟩ := List.mem_map.mp ht
      simp [(h3 x hx c hct).2]
  rw [show ('[' :: (joinCS ((x0 :: l').map fun x => (reprF x).toList) ++ [']']))
      = ('[' :: joinCS ((x0 :: l').map fun x => (reprF x).toList) ++ [']']) from rfl,
    stripCore_wrap _ (by rw [List.map_cons]; exact joinCS_ne_nil _ _ h0ne) hmem,
    List.map_cons,
    splitOnCommaChars_joinCS _ _
      (fun c hc => (h3 x0 (List.mem_cons_self x0 l') c hc).1)
      (fun t ht c hc => by
        obtain ⟨x, hx, rfl⟩ := List.mem_map.mp ht
        exact (h3 x (List.mem_cons_of_mem x0 hx) c hc).1),
    List.map_cons, mk_toList]
  have hmap : ((l'.map fun x => (reprF x).toList).map fun t => ' ' :: t).map String.mk
      = l'.map (fun x => String.mk (' ' :: (reprF x).toList)) := by
    simp [List.map_map, Function.comp]
  rw [hmap]
  simp only [map_float, h1 x0 (List.mem_cons_self x0 l'),
    map_float_spaced pyFloat reprF l' (fun y hy => h2 y (List.mem_cons_of_mem x0 hy))]

/-- C5 counterexample: the empty float sequence does not round-trip.
`str([])` is the cell `"[]"`, which is nonempty, strips to `""`, splits to
`[""]`, and `float("")` raises `ValueError` — the parse fails instead of
returning the empty sequence. -/
theorem parse_numbers_empty_roundtrip_cex :
    parse_numbers pyFloatTok (pyStrList (fun t => t) ([] : List String))
      = .error .ValueError
    ∧ parse_numbers pyFloatTok (pyStrList (fun t => t) ([] : List String))
      ≠ .ok (some ([] : List String)) := by
  decide

/-- Witness for the amended C5, at the repr-string level (`repr` is injective
on Python floats, so floats are identified with their repr strings): the
two-element sequence `0.1, 0.25` written as `"[0.1, 0.25]"` parses back to
itself. -/
theorem parse_numbers_roundtrip_witness :
    parse_numbers pyFloatTok (pyStrList (fun t => t) ["0.1", "0.25"])
      = .ok (some ["0.1", "0.25"]) :=
  parse_numbers_roundtrip pyFloatTok (fun t => t) ["0.1", "0.25"]
    (by decide) (by decide) (by decide) (by decide) (by decide)

end AmaChatbot
